import Mathlib

/-!
# Shallow embedding of `src/plugins/TypeScriptPlugin.ts`

This file models the TypeScript language-service plugin of the
svelte-language-server repository: document snapshots, the language-service
session table with its restart-on-script-kind-change logic, the module
resolution fallback for markup files, and the diagnostics / hover /
formatting adapters.

External collaborators (the TypeScript compiler engine, prettier,
detect-indent, Node's `path` module, the host `Document` implementation) are
modelled either as function parameters or as small faithful definitions of
the library behaviour actually relied upon.
-/

/-- LSP-style position, produced by the host document's `positionAt`. -/
structure Position where
  line : Nat
  character : Nat
deriving DecidableEq, Repr

/-- A range between two positions, as in the `api` module's `Range`. -/
structure Range where
  start : Position
  «end» : Position
deriving DecidableEq, Repr

/-- `Range.create(start, end)` from the api module. -/
def Range.create (a b : Position) : Range :=
  { start := a, «end» := b }

/-- `ts.ScriptKind` (the constructors used by the plugin). -/
inductive ScriptKind where
  | JS
  | JSX
  | TS
  | TSX
  | JSON
  | Unknown
deriving DecidableEq, Repr

/-- The host `Document` consumed by the plugin.  `attrType` models
`document.getAttributes().type` (`none` = attribute absent, i.e. `undefined`
in the source); `positionAt` is the host's offset-to-position capability,
kept abstract as a function field. -/
structure Document where
  filePath : String
  text : String
  version : Nat
  attrType : Option String
  positionAt : Nat → Position

/-- `document.getText()`. -/
def Document.getText (d : Document) : String :=
  d.text

/-- `document.getTextLength()`. -/
def Document.getTextLength (d : Document) : Nat :=
  d.text.length

/-- `getScriptKindFromTypeAttribute`: `'text/typescript'` maps to `TS`;
`'text/javascript'` and the `default` branch (any other string, or an absent
attribute) map to `JS`.  Total by construction. -/
def getScriptKindFromTypeAttribute : Option String → ScriptKind
  | some "text/typescript" => ScriptKind.TS
  | _ => ScriptKind.JS

/-- JavaScript's `String.prototype.substring(start, end)` as used by the
snapshot's `getText`: each argument is clamped to `[0, length]`, and the two
are swapped when `start > end`; the result is the run of characters between
the clamped bounds.  Total for all integer arguments. -/
def jsSubstring (s : String) (start stop : Int) : String :=
  let len : Int := Int.ofNat s.length
  let a := min (max start 0) len
  let b := min (max stop 0) len
  let lo := min a b
  let hi := max a b
  String.mk ((s.toList.drop lo.toNat).take (hi - lo).toNat)

/-- `DocumentSnapshot`: `ts.IScriptSnapshot` plus `version` and
`scriptKind`.  The source object closes over `text` and `length` captured
from the document at creation; those captures are the `text` and `length`
fields here. -/
structure DocumentSnapshot where
  version : Nat
  scriptKind : ScriptKind
  text : String
  length : Nat
deriving DecidableEq, Repr

/-- The snapshot's `getText: (start, end) => text.substring(start, end)`. -/
def DocumentSnapshot.getText (s : DocumentSnapshot) (start stop : Int) : String :=
  jsSubstring s.text start stop

/-- The snapshot's `getLength: () => length`. -/
def DocumentSnapshot.getLength (s : DocumentSnapshot) : Nat :=
  s.length

/-- `DocumentSnapshot.fromDocument`. -/
def DocumentSnapshot.fromDocument (document : Document) : DocumentSnapshot :=
  { version := document.version
    scriptKind := getScriptKindFromTypeAttribute document.attrType
    text := document.getText
    length := document.getTextLength }

/-- `Map.set` semantics of the `documents` map: replace the value of an
existing key in place (insertion order preserved), append a fresh key at the
end. -/
def mapSet (m : List (String × DocumentSnapshot)) (k : String) (v : DocumentSnapshot) :
    List (String × DocumentSnapshot) :=
  match m with
  | [] => [(k, v)]
  | (k', v') :: rest => if k' = k then (k, v) :: rest else (k', v') :: mapSet rest k v

theorem lookup_mapSet_self (m : List (String × DocumentSnapshot)) (k : String)
    (v : DocumentSnapshot) : List.lookup k (mapSet m k v) = some v := by
  induction m with
  | nil => simp [mapSet, List.lookup]
  | cons p rest ih =>
    obtain ⟨k', v'⟩ := p
    by_cases h : k' = k
    · simp [mapSet, h, List.lookup]
    · simp only [mapSet, if_neg h, List.lookup]
      have : (k == k') = false := by
        simp [beq_eq_false_iff_ne]
        exact fun hk => h hk.symm
      simp [this, ih]

theorem lookup_mapSet_ne (m : List (String × DocumentSnapshot)) (k k' : String)
    (v : DocumentSnapshot) (h : k' ≠ k) :
    List.lookup k' (mapSet m k v) = List.lookup k' m := by
  induction m with
  | nil => simp [mapSet, List.lookup, beq_eq_false_iff_ne.mpr h]
  | cons p rest ih =>
    obtain ⟨k₁, v₁⟩ := p
    by_cases hk : k₁ = k
    · subst hk
      simp [mapSet, List.lookup, beq_eq_false_iff_ne.mpr h]
    · simp only [mapSet, if_neg hk, List.lookup]
      by_cases he : k' = k₁
      · simp [he]
      · simp [beq_eq_false_iff_ne.mpr he, ih]

/-- Lifecycle events of the `ts.LanguageService` instances owned by
`getLanguageService`: `languageService.dispose()` and
`ts.createLanguageService(host)`.  Instances are identified by a numeric
identity; a freshly created instance always has a new identity. -/
inductive SessionEvent where
  | dispose (id : Nat)
  | create (id : Nat)
deriving DecidableEq, Repr

/-- The set of live engine instances evolving under a lifecycle event. -/
def applyEvent (live : List Nat) : SessionEvent → List Nat
  | SessionEvent.dispose i => live.erase i
  | SessionEvent.create i => live ++ [i]

/-- The mutable state closed over by `getLanguageService`: the `documents`
map and the current `languageService` (as an identity). -/
structure LangState where
  documents : List (String × DocumentSnapshot)
  session : Nat

/-- Result of one `updateDocument` call: the lifecycle events it performed
(in order), the language service it returned, and the state afterwards. -/
structure UpdateResult where
  events : List SessionEvent
  service : Nat
  state : LangState

/-- `updateDocument(document)`: look up the previous snapshot for the
document's file path, build the new snapshot; if a previous snapshot exists
and its script kind differs, dispose the current language service and create
a fresh one (the restart); in every case store the new snapshot and return
the (possibly new) language service. -/
def updateDocument (document : Document) (st : LangState) : UpdateResult :=
  let preSnapshot := List.lookup document.filePath st.documents
  let newSnapshot := DocumentSnapshot.fromDocument document
  match preSnapshot with
  | some pre =>
    if pre.scriptKind ≠ newSnapshot.scriptKind then
      { events := [SessionEvent.dispose st.session, SessionEvent.create (st.session + 1)]
        service := st.session + 1
        state := { documents := mapSet st.documents document.filePath newSnapshot
                   session := st.session + 1 } }
    else
      { events := []
        service := st.session
        state := { documents := mapSet st.documents document.filePath newSnapshot
                   session := st.session } }
  | none =>
      { events := []
        service := st.session
        state := { documents := mapSet st.documents document.filePath newSnapshot
                   session := st.session } }

theorem updateDocument_documents (document : Document) (st : LangState) :
    (updateDocument document st).state.documents =
      mapSet st.documents document.filePath (DocumentSnapshot.fromDocument document) := by
  unfold updateDocument
  cases List.lookup document.filePath st.documents with
  | none => rfl
  | some pre =>
    by_cases h : pre.scriptKind ≠ (DocumentSnapshot.fromDocument document).scriptKind
    · simp [h]
    · simp [h]

/-- The host's `getScriptVersion(fileName)`: stringified snapshot version,
or `"0"` for a file name not in the `documents` map. -/
def getScriptVersion (documents : List (String × DocumentSnapshot)) (fileName : String) :
    String :=
  match List.lookup fileName documents with
  | some doc => toString doc.version
  | none => "0"

/-! ## Project configuration discovery (`getLanguageService` setup) -/

/-- `ts.ScriptTarget` (only the constructor the plugin uses, plus a generic
one so the type is not a singleton). -/
inductive ScriptTarget where
  | Latest
  | Other (v : Nat)
deriving DecidableEq, Repr

/-- `ts.ModuleKind` (as above). -/
inductive ModuleKind where
  | ESNext
  | Other (v : Nat)
deriving DecidableEq, Repr

/-- `ts.ModuleResolutionKind` (as above). -/
inductive ModuleResolutionKind where
  | NodeJs
  | Other (v : Nat)
deriving DecidableEq, Repr

/-- The compiler options the plugin sets or relies on. -/
structure CompilerOptions where
  allowNonTsExtensions : Bool
  target : ScriptTarget
  module : ModuleKind
  moduleResolution : ModuleResolutionKind
  allowJs : Bool
deriving DecidableEq, Repr

/-- The initial `compilerOptions` object of `getLanguageService`, used
unchanged when no configuration file is discovered. -/
def defaultCompilerOptions : CompilerOptions :=
  { allowNonTsExtensions := true
    target := ScriptTarget.Latest
    module := ModuleKind.ESNext
    moduleResolution := ModuleResolutionKind.NodeJs
    allowJs := true }

/-- Result of `ts.parseJsonConfigFileContent` on a discovered config file:
its file list and the merged compiler options (the source merges with
`{...compilerOptions, ...parsedConfig.options}`; `options` here stands for
that merged result). -/
structure ParsedConfig where
  fileNames : List String
  options : CompilerOptions
deriving DecidableEq, Repr

/-- The configuration-dependent state `getLanguageService` sets up before
building the host: the final `compilerOptions`, and the `files` variable,
which is declared `let files: string[];` and assigned ONLY inside
`if (configJson) { ... }` — so it is still `undefined` (here `none`) when no
tsconfig.json/jsconfig.json was discovered. -/
structure ConfigSetup where
  compilerOptions : CompilerOptions
  files : Option (List String)
deriving DecidableEq, Repr

/-- The setup phase of `getLanguageService`, with the outcome of config
discovery (`configFilename && ts.readConfigFile(...).config`, then
`ts.parseJsonConfigFileContent`) abstracted as an `Option ParsedConfig`. -/
def getLanguageServiceSetup (configJson : Option ParsedConfig) : ConfigSetup :=
  match configJson with
  | none => { compilerOptions := defaultCompilerOptions, files := none }
  | some parsedConfig =>
      { compilerOptions := parsedConfig.options
        files := some parsedConfig.fileNames }

/-- `Array.from(new Set(l))`: de-duplication keeping the first occurrence of
each element, in insertion order. -/
def dedupFirst (l : List String) : List String :=
  l.foldl (fun acc x => if x ∈ acc then acc else acc ++ [x]) []

/-- The host's `getScriptFileNames`:
`Array.from(new Set([...files, ...Array.from(documents.keys())]))`.
Spreading `files` when it is `undefined` (no config file was found) throws a
`TypeError` at runtime; that failure is modelled as `Except.error`. -/
def getScriptFileNames (files : Option (List String)) (documentKeys : List String) :
    Except String (List String) :=
  match files with
  | some fs => Except.ok (dedupFirst (fs ++ documentKeys))
  | none => Except.error "TypeError: files is not iterable"

/-! ## Module resolution (`resolveModuleNames` and the markup fallback)

The path helpers model Node's `path` module on POSIX paths.  They are
written structurally over character lists so that they evaluate
definitionally on concrete inputs. -/

/-- JavaScript's `String.prototype.endsWith`. -/
def strEndsWith (s suffix : String) : Bool :=
  List.isSuffixOf suffix.toList s.toList

/-- A `startsWith` test on the character lists. -/
def strStartsWith (s pre : String) : Bool :=
  List.isPrefixOf pre.toList s.toList

/-- `isSvelte(filePath)`. -/
def isSvelte (filePath : String) : Bool :=
  strEndsWith filePath ".html" || strEndsWith filePath ".svelte"

/-- Split a character list on a separator character (the splitting behind
`path` segment handling): always returns at least one (possibly empty)
segment. -/
def splitOnChar (sep : Char) : List Char → List (List Char)
  | [] => [[]]
  | c :: cs =>
    let r := splitOnChar sep cs
    if c = sep then [] :: r
    else
      match r with
      | [] => [[c]]
      | h :: t => (c :: h) :: t

/-- Join segments with `'/'`. -/
def joinSlash : List (List Char) → List Char
  | [] => []
  | [s] => s
  | s :: rest => s ++ '/' :: joinSlash rest

/-- Model of Node's `path.dirname` on POSIX paths: the path with its last
component removed (`"."` for a bare name, `"/"` at the root); trailing
slashes are ignored. -/
def dirname (p : String) : String :=
  let segs := ((splitOnChar '/' p.toList).reverse.dropWhile (fun s => s = [])).reverse
  match segs with
  | [] => if strStartsWith p "/" then "/" else "."
  | [_] => if strStartsWith p "/" then "/" else "."
  | _ =>
    let d := joinSlash segs.dropLast
    if d = [] then "/" else String.mk d

/-- Model of Node's `path.basename`. -/
def basename (p : String) : String :=
  String.mk (((splitOnChar '/' p.toList).reverse.dropWhile (fun s => s = [])).headD [])

/-- The suffix of a character list starting at its last `'.'`, if any. -/
def lastExt : List Char → Option (List Char)
  | [] => none
  | c :: cs =>
    match lastExt cs with
    | some e => some e
    | none => if c = '.' then some (c :: cs) else none

/-- Model of Node's `path.extname`: the part of the base name from its last
`'.'` to the end; empty when there is no dot or the only dot leads a
dotfile. -/
def extname (p : String) : String :=
  let b := basename p
  match lastExt b.toList with
  | none => ""
  | some e => if e.length = b.length then "" else String.mk e

/-- Model of Node's `path.resolve(dir, name)` for an absolute `dir` (module
resolution always passes the absolute containing file's directory): join
unless `name` is already absolute, then normalize `""`/`"."`/`".."`
segments. -/
def pathResolve (dir name : String) : String :=
  let p := if strStartsWith name "/" then name.toList else dir.toList ++ '/' :: name.toList
  let segs := (splitOnChar '/' p).foldl
    (fun acc s =>
      if s = [] then acc
      else if s = ['.'] then acc
      else if s = ['.', '.'] then acc.dropLast
      else acc ++ [s]) []
  String.mk ('/' :: joinSlash segs)

/-- A `ts.ResolvedModule` as the plugin produces or forwards it.  The
synthesized fallback sets `resolvedFileName` and `extension`; what native
resolution returns is opaque to the plugin, so `extension` is optional. -/
structure ResolvedModule where
  resolvedFileName : String
  extension : Option String
deriving DecidableEq, Repr

/-- The host's `resolveModuleNames(moduleNames, containingFile)`, with the
engine's native `ts.resolveModuleName` abstracted as the `native`
parameter.  For each name: the native result when it resolved; otherwise,
if the name looks like a markup file, a synthesized resolution at the
containing file's directory joined with the name; otherwise the slot is
left unresolved (the source returns `resolved.resolvedModule!`, which is
`undefined` there — no exception is thrown). -/
def resolveModuleNames (native : String → String → Option ResolvedModule)
    (moduleNames : List String) (containingFile : String) : List (Option ResolvedModule) :=
  moduleNames.map fun name =>
    match native name containingFile with
    | some r => some r
    | none =>
      if isSvelte name then
        some { resolvedFileName := pathResolve (dirname containingFile) name
               extension := some (extname name) }
      else
        none

/-! ## Result adapters: diagnostics, hover, formatting -/

/-- `DiagnosticSeverity` from the api module. -/
inductive DiagnosticSeverity where
  | Error
  | Warning
  | Information
  | Hint
deriving DecidableEq, Repr

/-- `ts.DiagnosticCategory` as reported by the engine. -/
inductive DiagnosticCategory where
  | Warning
  | Error
  | Suggestion
  | Message
deriving DecidableEq, Repr

/-- An engine-reported diagnostic, as consumed by the plugin: optional
`start`/`length` (they are optional on `ts.Diagnostic`), the engine's
category, and the message text (message chains are flattened by the
engine-side `ts.flattenDiagnosticMessageText`; the flattened string is
modelled directly). -/
structure TsDiagnostic where
  start : Option Nat
  length : Option Nat
  category : DiagnosticCategory
  messageText : String
deriving DecidableEq, Repr

/-- A host diagnostic as produced by the plugin. -/
structure Diagnostic where
  range : Range
  severity : DiagnosticSeverity
  source : String
  message : String
deriving DecidableEq, Repr

/-- `convertRange(document, range)`:
`Range.create(positionAt(start || 0), positionAt((start || 0) + (length || 0)))`. -/
def convertRange (document : Document) (start length : Option Nat) : Range :=
  Range.create
    (document.positionAt (start.getD 0))
    (document.positionAt (start.getD 0 + length.getD 0))

/-- The per-diagnostic mapping applied by `getDiagnostics`: severity is
always `Error` (the engine category is discarded), source is `'ts'` exactly
when the document's type attribute classifies as `TS`, else `'js'`. -/
def convertDiagnostic (document : Document) (d : TsDiagnostic) : Diagnostic :=
  { range := convertRange document d.start d.length
    severity := DiagnosticSeverity.Error
    source :=
      if getScriptKindFromTypeAttribute document.attrType = ScriptKind.TS then "ts" else "js"
    message := d.messageText }

/-- `getDiagnostics(document)`: the engine's syntactic diagnostics followed
by its semantic diagnostics (the outputs of `getSyntacticDiagnostics` and
`getSemanticDiagnostics` are the two list parameters), each converted. -/
def getDiagnostics (document : Document)
    (syntaxDiagnostics semanticDiagnostics : List TsDiagnostic) : List Diagnostic :=
  (syntaxDiagnostics ++ semanticDiagnostics).map (convertDiagnostic document)

/-- `ts.QuickInfo` as consumed by `doHover`: the text span and the display
parts (`ts.displayPartsToString` concatenates their `text` fields, so each
part is modelled as its text). -/
structure QuickInfo where
  textSpanStart : Nat
  textSpanLength : Nat
  displayParts : List String
deriving DecidableEq, Repr

/-- `ts.displayPartsToString`. -/
def displayPartsToString (parts : List String) : String :=
  String.join parts

/-- Hover contents `{language, value}`. -/
structure HoverContents where
  language : String
  value : String
deriving DecidableEq, Repr

/-- A hover result. -/
structure Hover where
  range : Range
  contents : HoverContents
deriving DecidableEq, Repr

/-- `doHover(document, position)`, with the engine's
`getQuickInfoAtPosition(filePath, offsetAt(position))` abstracted as the
`info` parameter: `null` when the engine reports nothing, otherwise a hover
whose range converts the text span and whose contents carry the `'ts'`
language tag. -/
def doHover (document : Document) (info : Option QuickInfo) : Option Hover :=
  match info with
  | none => none
  | some i =>
    some { range := convertRange document (some i.textSpanStart) (some i.textSpanLength)
           contents := { language := "ts", value := displayPartsToString i.displayParts } }

/-- `prettier.BuiltInParserName` values the plugin selects between. -/
inductive ParserName where
  | typescript
  | babylon
deriving DecidableEq, Repr

/-- `getParserFromTypeAttribute`. -/
def getParserFromTypeAttribute : Option String → ParserName
  | some "text/typescript" => ParserName.typescript
  | _ => ParserName.babylon

/-- The kind of indentation `detect-indent` reports (`type` is `undefined`
when the text has no detectable indentation). -/
inductive IndentType where
  | tab
  | space
deriving DecidableEq, Repr

/-- A `detect-indent` result: `amount` and `type`. -/
structure Indent where
  amount : Nat
  type : Option IndentType
deriving DecidableEq, Repr

/-- A `TextEdit` from the api module, `{range, newText}`. -/
structure TextEdit where
  range : Range
  newText : String
deriving DecidableEq, Repr

/-- `TextEdit.replace(range, newText)`. -/
def TextEdit.replace (range : Range) (newText : String) : TextEdit :=
  { range := range, newText := newText }

/-- Model of the `indent-string` package as called here: prefix every line
that is not whitespace-only with the indent string repeated `count`
times. -/
def indentString (s : String) (count : Nat) (ind : String) : String :=
  String.intercalate "\n" ((s.splitOn "\n").map fun line =>
    if line.trim = "" then line
    else String.join (List.replicate count ind) ++ line)

/-- `formatDocument(document)`.  The third-party pieces are parameters:
`prettierFormat parser text` stands for `prettier.format(text, {...config,
parser})` with the `await prettier.resolveConfig(...)` result folded in, and
`detectIndent` for the `detect-indent` package.  Empty documents yield no
edits; otherwise a single full-range replacement whose text is a newline
followed by the formatted code re-indented with the detected style. -/
def formatDocument (prettierFormat : ParserName → String → String)
    (detectIndent : String → Indent) (document : Document) : List TextEdit :=
  if document.getTextLength = 0 then []
  else
    let formattedCode :=
      prettierFormat (getParserFromTypeAttribute document.attrType) document.getText
    let indent := detectIndent document.getText
    [TextEdit.replace
      (Range.create (document.positionAt 0) (document.positionAt document.getTextLength))
      ("\n" ++ indentString formattedCode indent.amount
        (if indent.type = some IndentType.tab then "\t" else " "))]

/-! ## Concrete fixtures used to instantiate the theorems -/

/-- A trivial `positionAt` standing in for a host document's indexing. -/
def posZero : Nat → Position := fun _ => { line := 0, character := 0 }

/-- A markup document with an untyped script fragment. -/
def docJs : Document :=
  { filePath := "/proj/src/App.html", text := "let x = 1", version := 1
    attrType := none, positionAt := posZero }

/-- The same fragment updated to the typed dialect. -/
def docTs : Document :=
  { filePath := "/proj/src/App.html", text := "let x: number = 1", version := 2
    attrType := some "text/typescript", positionAt := posZero }

/-- The same fragment edited without a dialect change. -/
def docJsEdit : Document :=
  { filePath := "/proj/src/App.html", text := "let y = 2", version := 2
    attrType := none, positionAt := posZero }

/-- An empty document. -/
def docEmpty : Document :=
  { filePath := "/proj/src/Empty.html", text := "", version := 1
    attrType := none, positionAt := posZero }

/-- The snapshot of `docJs`. -/
def snapJs : DocumentSnapshot := DocumentSnapshot.fromDocument docJs

/-- A language-service state already tracking `docJs`. -/
def stC1 : LangState := { documents := [("/proj/src/App.html", snapJs)], session := 0 }

/-- The empty language-service state. -/
def stV0 : LangState := { documents := [], session := 0 }

/-- A syntactic diagnostic at offset 5. -/
def synDiag : TsDiagnostic :=
  { start := some 5, length := some 1, category := DiagnosticCategory.Error
    messageText := "syntax error" }

/-- A semantic diagnostic at offset 20, reported as a warning by the
engine. -/
def semDiag : TsDiagnostic :=
  { start := some 20, length := some 2, category := DiagnosticCategory.Warning
    messageText := "semantic error" }

/-- A native resolver that never resolves anything. -/
def nativeNone : String → String → Option ResolvedModule := fun _ _ => none

/-- An identity stand-in for prettier's formatter. -/
def fmtId : ParserName → String → String := fun _ s => s

/-- A detect-indent stand-in reporting two-space indentation. -/
def detect2 : String → Indent := fun _ => { amount := 2, type := some IndentType.space }

/-! ## Helper lemmas -/

theorem jsSubstring_comm (s : String) (a b : Int) :
    jsSubstring s a b = jsSubstring s b a := by
  simp only [jsSubstring]
  rw [min_comm (min (max a 0) (Int.ofNat s.length)) (min (max b 0) (Int.ofNat s.length)),
      max_comm (min (max a 0) (Int.ofNat s.length)) (min (max b 0) (Int.ofNat s.length))]

theorem getScriptKindFromTypeAttribute_eq_JS (t : Option String)
    (h : t ≠ some "text/typescript") : getScriptKindFromTypeAttribute t = ScriptKind.JS := by
  unfold getScriptKindFromTypeAttribute
  split
  · exact absurd rfl h
  · rfl

theorem getScriptKindFromTypeAttribute_eq_TS_iff (t : Option String) :
    getScriptKindFromTypeAttribute t = ScriptKind.TS ↔ t = some "text/typescript" := by
  constructor
  · intro h
    by_cases ht : t = some "text/typescript"
    · exact ht
    · rw [getScriptKindFromTypeAttribute_eq_JS t ht] at h
      exact absurd h (by decide)
  · rintro rfl
    rfl

/-! ## Claim theorems -/

/-- C6: `getDiagnostics` lists all syntactic diagnostics before all semantic
diagnostics, each group in engine order; in particular with one syntax error
and one semantic error the syntax error comes first regardless of
offsets. -/
theorem getDiagnostics_syntactic_before_semantic (document : Document)
    (syntaxDiagnostics semanticDiagnostics : List TsDiagnostic) :
    getDiagnostics document syntaxDiagnostics semanticDiagnostics =
      syntaxDiagnostics.map (convertDiagnostic document) ++
        semanticDiagnostics.map (convertDiagnostic document) ∧
    ∀ d1 d2 : TsDiagnostic, getDiagnostics document [d1] [d2] =
      [convertDiagnostic document d1, convertDiagnostic document d2] :=
  ⟨List.map_append _ _ _, fun _ _ => rfl⟩

/-- C10: every diagnostic returned by `getDiagnostics` has severity
`Error`; the engine-reported category is discarded. -/
theorem getDiagnostics_severity_always_error (document : Document)
    (syntaxDiagnostics semanticDiagnostics : List TsDiagnostic) (d : Diagnostic)
    (hd : d ∈ getDiagnostics document syntaxDiagnostics semanticDiagnostics) :
    d.severity = DiagnosticSeverity.Error := by
  simp only [getDiagnostics, List.mem_map] at hd
  obtain ⟨t, _, rfl⟩ := hd
  rfl

/-- Witness for C10: a concrete warning-category semantic diagnostic is
reported with severity `Error`. -/
theorem getDiagnostics_severity_always_error_witness :
    (convertDiagnostic docJs semDiag).severity = DiagnosticSeverity.Error :=
  getDiagnostics_severity_always_error docJs [synDiag] [semDiag]
    (convertDiagnostic docJs semDiag) (by simp [getDiagnostics])

/-- C7: `doHover` returns `null` when the engine reports no quick-info, and
otherwise a hover whose range is the converted text span and whose contents
carry the `'ts'` language tag. -/
theorem doHover_null_on_absence (document : Document) :
    doHover document none = none ∧
    ∀ i : QuickInfo, doHover document (some i) =
      some { range := convertRange document (some i.textSpanStart) (some i.textSpanLength)
             contents := { language := "ts"
                           value := displayPartsToString i.displayParts } } :=
  ⟨rfl, fun _ => rfl⟩

/-- C8: dialect classification is total; `'text/typescript'` maps to `TS`
and every other attribute value (including absence) to `JS`; the diagnostic
`source` is `'ts'` exactly when the attribute is `'text/typescript'`. -/
theorem getScriptKind_dialect_classification :
    getScriptKindFromTypeAttribute (some "text/typescript") = ScriptKind.TS ∧
    (∀ t : Option String, t ≠ some "text/typescript" →
      getScriptKindFromTypeAttribute t = ScriptKind.JS) ∧
    (∀ (document : Document) (syn sem : List TsDiagnostic) (d : Diagnostic),
      d ∈ getDiagnostics document syn sem →
      (d.source = "ts" ↔ document.attrType = some "text/typescript")) := by
  refine ⟨rfl, getScriptKindFromTypeAttribute_eq_JS, ?_⟩
  intro document syn sem d hd
  simp only [getDiagnostics, List.mem_map] at hd
  obtain ⟨t, _, rfl⟩ := hd
  by_cases h : document.attrType = some "text/typescript"
  · simp [convertDiagnostic, h, getScriptKindFromTypeAttribute]
  · have hk := getScriptKindFromTypeAttribute_eq_JS _ h
    simp [convertDiagnostic, hk, h]

/-- Witness for C8: an absent attribute classifies as `JS` and a diagnostic
on such a document has source `'js'`. -/
theorem getScriptKind_dialect_classification_witness :
    getScriptKindFromTypeAttribute none = ScriptKind.JS ∧
    ((convertDiagnostic docJs synDiag).source = "ts" ↔
      docJs.attrType = some "text/typescript") :=
  ⟨getScriptKind_dialect_classification.2.1 none (by simp),
   getScriptKind_dialect_classification.2.2 docJs [synDiag] [] _ (by simp [getDiagnostics])⟩

/-- C2: `resolveModuleNames` delegates to native resolution first; only when
that fails and the name is markup-like does it synthesize a resolution at
the requesting file's directory joined with the name; a failed non-markup
name leaves the slot unresolved, without raising. -/
theorem resolveModuleNames_native_first_then_fallback
    (native : String → String → Option ResolvedModule)
    (moduleNames : List String) (containingFile : String)
    (i : Nat) (name : String) (hname : moduleNames[i]? = some name) :
    (∀ r : ResolvedModule, native name containingFile = some r →
      (resolveModuleNames native moduleNames containingFile)[i]? = some (some r)) ∧
    (native name containingFile = none → isSvelte name = true →
      (resolveModuleNames native moduleNames containingFile)[i]? =
        some (some { resolvedFileName := pathResolve (dirname containingFile) name
                     extension := some (extname name) })) ∧
    (native name containingFile = none → isSvelte name = false →
      (resolveModuleNames native moduleNames containingFile)[i]? = some none) := by
  have hmap : (resolveModuleNames native moduleNames containingFile)[i]? =
      some (match native name containingFile with
            | some r => some r
            | none =>
              if isSvelte name then
                some { resolvedFileName := pathResolve (dirname containingFile) name
                       extension := some (extname name) }
              else none) := by
    simp [resolveModuleNames, hname]
  refine ⟨?_, ?_, ?_⟩
  · intro r hr
    rw [hmap, hr]
  · intro hn hs
    rw [hmap, hn]
    simp [hs]
  · intro hn hs
    rw [hmap, hn]
    simp [hs]

/-- Witness for C2: with a native resolver that never resolves, a markup
name is synthesized next to the requesting file and a bare package name is
left unresolved. -/
theorem resolveModuleNames_fallback_witness :
    (resolveModuleNames nativeNone ["./Nested.html", "react"] "/proj/src/App.html")[0]? =
      some (some { resolvedFileName := "/proj/src/Nested.html", extension := some ".html" }) ∧
    (resolveModuleNames nativeNone ["./Nested.html", "react"] "/proj/src/App.html")[1]? =
      some none := by
  have h0 := (resolveModuleNames_native_first_then_fallback nativeNone
    ["./Nested.html", "react"] "/proj/src/App.html" 0 "./Nested.html" rfl).2.1 rfl (by decide)
  have h1 := (resolveModuleNames_native_first_then_fallback nativeNone
    ["./Nested.html", "react"] "/proj/src/App.html" 1 "react" rfl).2.2 rfl (by decide)
  exact ⟨h0.trans (by decide), h1⟩

/-- C3 (code bug): with no tsconfig.json/jsconfig.json discovered, the
compiler options do fall back to the defaults, but the host's
`getScriptFileNames` throws — the `files` variable is never assigned when
`configJson` is absent, and spreading `undefined` is a `TypeError`. -/
theorem noConfig_getScriptFileNames_throws :
    (getLanguageServiceSetup none).compilerOptions = defaultCompilerOptions ∧
    ∀ documentKeys : List String, ∃ msg : String,
      getScriptFileNames (getLanguageServiceSetup none).files documentKeys =
        Except.error msg :=
  ⟨rfl, fun _ => ⟨_, rfl⟩⟩

/-- C5: formatting an empty document yields no edits; a non-empty document
yields exactly one edit replacing the full range 0..length with a newline
followed by the formatted code re-indented to the detected style. -/
theorem formatDocument_empty_or_single_full_edit
    (prettierFormat : ParserName → String → String) (detectInd : String → Indent)
    (document : Document) :
    (document.getTextLength = 0 → formatDocument prettierFormat detectInd document = []) ∧
    (document.getTextLength ≠ 0 → ∃ e : TextEdit,
      formatDocument prettierFormat detectInd document = [e] ∧
      e.range =
        Range.create (document.positionAt 0) (document.positionAt document.getTextLength) ∧
      e.newText = "\n" ++ indentString
        (prettierFormat (getParserFromTypeAttribute document.attrType) document.getText)
        (detectInd document.getText).amount
        (if (detectInd document.getText).type = some IndentType.tab then "\t" else " ")) := by
  constructor
  · intro h
    simp [formatDocument, h]
  · intro h
    refine ⟨TextEdit.replace
      (Range.create (document.positionAt 0) (document.positionAt document.getTextLength))
      ("\n" ++ indentString
        (prettierFormat (getParserFromTypeAttribute document.attrType) document.getText)
        (detectInd document.getText).amount
        (if (detectInd document.getText).type = some IndentType.tab then "\t" else " ")),
      ?_, rfl, rfl⟩
    simp [formatDocument, h]

/-- Witness for C5: the empty document formats to no edits; a concrete
non-empty document formats to a single full-range edit. -/
theorem formatDocument_witness :
    formatDocument fmtId detect2 docEmpty = [] ∧
    ∃ e : TextEdit,
      formatDocument fmtId detect2 docJs = [e] ∧
      e.range = Range.create (docJs.positionAt 0) (docJs.positionAt docJs.getTextLength) ∧
      e.newText = "\n" ++ indentString
        (fmtId (getParserFromTypeAttribute docJs.attrType) docJs.getText)
        (detect2 docJs.getText).amount
        (if (detect2 docJs.getText).type = some IndentType.tab then "\t" else " ") :=
  ⟨(formatDocument_empty_or_single_full_edit fmtId detect2 docEmpty).1 rfl,
   (formatDocument_empty_or_single_full_edit fmtId detect2 docJs).2 (by decide)⟩

/-- C1: `updateDocument` disposes the current language service and creates a
fresh one (different identity, disposal first, never two live instances)
exactly when a tracked file's script kind changes; with an unchanged kind or
a never-seen file the same service is returned. -/
theorem updateDocument_restart_on_kind_change (document : Document) (st : LangState) :
    (∀ pre : DocumentSnapshot, List.lookup document.filePath st.documents = some pre →
      (pre.scriptKind ≠ (DocumentSnapshot.fromDocument document).scriptKind →
        (updateDocument document st).service ≠ st.session ∧
        (updateDocument document st).events =
          [SessionEvent.dispose st.session,
           SessionEvent.create (updateDocument document st).service] ∧
        ∀ l ∈ List.scanl applyEvent [st.session] (updateDocument document st).events,
          l.length ≤ 1) ∧
      (pre.scriptKind = (DocumentSnapshot.fromDocument document).scriptKind →
        (updateDocument document st).service = st.session ∧
        (updateDocument document st).events = [])) ∧
    (List.lookup document.filePath st.documents = none →
      (updateDocument document st).service = st.session ∧
      (updateDocument document st).events = []) := by
  constructor
  · intro pre hpre
    constructor
    · intro hne
      have hu : updateDocument document st =
          { events := [SessionEvent.dispose st.session, SessionEvent.create (st.session + 1)]
            service := st.session + 1
            state := { documents := mapSet st.documents document.filePath
                         (DocumentSnapshot.fromDocument document)
                       session := st.session + 1 } } := by
        unfold updateDocument
        rw [hpre]
        simp [hne]
      rw [hu]
      refine ⟨Nat.succ_ne_self st.session, rfl, ?_⟩
      simp [List.scanl, applyEvent, List.erase_cons_head]
    · intro heq
      have hu : updateDocument document st =
          { events := []
            service := st.session
            state := { documents := mapSet st.documents document.filePath
                         (DocumentSnapshot.fromDocument document)
                       session := st.session } } := by
        unfold updateDocument
        rw [hpre]
        simp [heq]
      rw [hu]
      exact ⟨rfl, rfl⟩
  · intro hnone
    have hu : updateDocument document st =
        { events := []
          service := st.session
          state := { documents := mapSet st.documents document.filePath
                       (DocumentSnapshot.fromDocument document)
                     session := st.session } } := by
      unfold updateDocument
      rw [hnone]
    rw [hu]
    exact ⟨rfl, rfl⟩

/-- Witness for C1: updating the tracked untyped fragment with the typed
dialect restarts the session (dispose, then create, at most one live
instance throughout); updating it with the same dialect keeps the
session. -/
theorem updateDocument_restart_witness :
    ((updateDocument docTs stC1).service ≠ stC1.session ∧
      (updateDocument docTs stC1).events =
        [SessionEvent.dispose stC1.session,
         SessionEvent.create (updateDocument docTs stC1).service] ∧
      ∀ l ∈ List.scanl applyEvent [stC1.session] (updateDocument docTs stC1).events,
        l.length ≤ 1) ∧
    ((updateDocument docJsEdit stC1).service = stC1.session ∧
      (updateDocument docJsEdit stC1).events = []) :=
  ⟨((updateDocument_restart_on_kind_change docTs stC1).1 snapJs (by decide)).1 (by decide),
   ((updateDocument_restart_on_kind_change docJsEdit stC1).1 snapJs (by decide)).2 (by decide)⟩

/-- C4 counterexample: two successive updates carrying the same document
version report the same script version (`"1"` both times), so the reported
versions over a sequence of repeated updates are not strictly increasing —
the second report equals the first instead of exceeding it. -/
theorem getScriptVersion_not_strictly_increasing :
    getScriptVersion
        (updateDocument docJs (updateDocument docJs stV0).state).state.documents
        docJs.filePath =
      getScriptVersion (updateDocument docJs stV0).state.documents docJs.filePath ∧
    getScriptVersion (updateDocument docJs stV0).state.documents docJs.filePath = "1" := by
  decide

/-- C4 as amended: `getScriptVersion` reports `"0"` for a never-seen file
and the stringified document version after each update; the reported
versions are strictly increasing provided the document versions supplied
for that file are. -/
theorem getScriptVersion_amended (st : LangState) (document : Document) :
    (List.lookup document.filePath st.documents = none →
      getScriptVersion st.documents document.filePath = "0") ∧
    getScriptVersion (updateDocument document st).state.documents document.filePath =
      toString document.version ∧
    (∀ document2 : Document, document2.filePath = document.filePath →
      document.version < document2.version →
      ∃ v1 v2 : Nat, v1 < v2 ∧
        getScriptVersion (updateDocument document st).state.documents document.filePath =
          toString v1 ∧
        getScriptVersion
          (updateDocument document2 (updateDocument document st).state).state.documents
          document.filePath = toString v2) := by
  have hver : ∀ (st' : LangState) (d : Document),
      getScriptVersion (updateDocument d st').state.documents d.filePath =
        toString d.version := by
    intro st' d
    rw [updateDocument_documents, getScriptVersion, lookup_mapSet_self]
    rfl
  refine ⟨?_, hver st document, ?_⟩
  · intro h
    rw [getScriptVersion, h]
  · intro document2 hpath hv
    refine ⟨document.version, document2.version, hv, hver st document, ?_⟩
    rw [← hpath, hver]

/-- Witness for C4 (amended): starting from the empty state, the fragment
reports `"0"` unseen, then `"1"` and `"2"` across two updates with
increasing document versions. -/
theorem getScriptVersion_amended_witness :
    getScriptVersion stV0.documents docJs.filePath = "0" ∧
    ∃ v1 v2 : Nat, v1 < v2 ∧
      getScriptVersion (updateDocument docJs stV0).state.documents docJs.filePath =
        toString v1 ∧
      getScriptVersion
        (updateDocument docTs (updateDocument docJs stV0).state).state.documents
        docJs.filePath = toString v2 :=
  ⟨(getScriptVersion_amended stV0 docJs).1 rfl,
   (getScriptVersion_amended stV0 docJs).2.2 docTs rfl (by decide)⟩

/-- C9: a snapshot's `getText` is total — arguments are clamped to the
captured text's bounds and reversed arguments are swapped — and always
returns a contiguous part of the text captured at snapshot time; updates
replace map entries with new snapshots and never mutate a stored one. -/
theorem snapshot_getText_safe (document : Document) (start stop : Int) :
    List.IsInfix ((DocumentSnapshot.fromDocument document).getText start stop).toList
      document.text.toList ∧
    (DocumentSnapshot.fromDocument document).text = document.text ∧
    (DocumentSnapshot.fromDocument document).getText start stop =
      (DocumentSnapshot.fromDocument document).getText stop start ∧
    (∀ (st : LangState) (document2 : Document) (k : String) (snap : DocumentSnapshot),
      List.lookup k st.documents = some snap →
      List.lookup k (updateDocument document2 st).state.documents =
        if k = document2.filePath then some (DocumentSnapshot.fromDocument document2)
        else some snap) := by
  refine ⟨?_, rfl, ?_, ?_⟩
  · show List.IsInfix (jsSubstring document.text start stop).toList document.text.toList
    unfold jsSubstring
    have h1 := List.take_prefix
      ((max (min (max start 0) (Int.ofNat document.text.length))
          (min (max stop 0) (Int.ofNat document.text.length)) -
        min (min (max start 0) (Int.ofNat document.text.length))
          (min (max stop 0) (Int.ofNat document.text.length))).toNat)
      (document.text.toList.drop
        (min (min (max start 0) (Int.ofNat document.text.length))
          (min (max stop 0) (Int.ofNat document.text.length))).toNat)
    have h2 := List.drop_suffix
      (min (min (max start 0) (Int.ofNat document.text.length))
        (min (max stop 0) (Int.ofNat document.text.length))).toNat
      document.text.toList
    exact h1.isInfix.trans h2.isInfix
  · exact jsSubstring_comm document.text start stop
  · intro st document2 k snap hsnap
    rw [updateDocument_documents]
    by_cases hk : k = document2.filePath
    · subst hk
      rw [lookup_mapSet_self, if_pos rfl]
    · rw [lookup_mapSet_ne _ _ _ _ hk, if_neg hk, hsnap]

/-- Witness for C9: the snapshot of `docJs` queried with out-of-range and
reversed bounds stays within the captured text, and the update with `docTs`
replaces its map entry with the new snapshot. -/
theorem snapshot_getText_safe_witness :
    List.IsInfix ((DocumentSnapshot.fromDocument docJs).getText 99 (-5)).toList
      docJs.text.toList ∧
    List.lookup "/proj/src/App.html" (updateDocument docTs stC1).state.documents =
      (if "/proj/src/App.html" = docTs.filePath
        then some (DocumentSnapshot.fromDocument docTs) else some snapJs) :=
  ⟨(snapshot_getText_safe docJs 99 (-5)).1,
   (snapshot_getText_safe docJs 99 (-5)).2.2.2 stC1 docTs "/proj/src/App.html" snapJs
     (by decide)⟩
